import Mathlib

/-!
Verification of the loop-nest lowering stage of loopy (src/loopy/codegen/loop.py) against its
natural-language specification. The external Presburger engine (islpy) and the repository code
that is not part of src (loopy.isl_helpers, loopy.codegen, loopy.kernel accessors) are modelled
from the spec as interfaces, as the spec itself directs (sections 1, 6 and 9); everything in
loop.py is embedded faithfully, including its control flow around raised exceptions.
-/

namespace Loopy

/-- A named dimension space of the external set algebra: ordered parameter dimensions and
ordered set dimensions (isl Space). Names are the identity of a dimension in this model. -/
structure Space where
  params : List String
  setDims : List String
deriving DecidableEq, Repr

/-- An affine form over named dimensions: an association list of integer coefficients plus an
integer constant (isl Aff). A name missing from the list has coefficient zero, and duplicate
entries add up, so the representation is insensitive to the order in which arithmetic built it. -/
structure Aff where
  coeffs : List (String × Int)
  const : Int
deriving DecidableEq, Repr

/-- The (summed) coefficient of a name in an affine form. -/
def Aff.coeffOf (a : Aff) (v : String) : Int :=
  ((a.coeffs.filter (fun p => p.1 == v)).map (fun p => p.2)).sum

/-- Value of an affine form under an integer assignment of the dimension names. -/
def Aff.eval (a : Aff) (rho : String → Int) : Int :=
  (a.coeffs.map (fun p => p.2 * rho p.1)).sum + a.const

/-- The constant affine form. -/
def constAff (k : Int) : Aff := ⟨[], k⟩

/-- The affine form that is one single variable. -/
def affOfVar (v : String) : Aff := ⟨[(v, 1)], 0⟩

/-- Sum of two affine forms. -/
def Aff.add (a b : Aff) : Aff := ⟨a.coeffs ++ b.coeffs, a.const + b.const⟩

/-- Difference of two affine forms. -/
def Aff.sub (a b : Aff) : Aff :=
  ⟨a.coeffs ++ b.coeffs.map (fun p => (p.1, -p.2)), a.const - b.const⟩

/-- Add an integer constant to an affine form (the aff + int arithmetic of the source). -/
def Aff.addConst (a : Aff) (k : Int) : Aff := ⟨a.coeffs, a.const + k⟩

/-- The names an affine form mentions. -/
def Aff.support (a : Aff) : List String := a.coeffs.map (fun p => p.1)

/-- isl plain_is_zero on an affine form: the form is structurally the zero form. In the
association-list representation this means every coefficient sums to zero and the constant is
zero, which is exactly the canonical-form test isl performs. -/
def Aff.plain_is_zero (a : Aff) : Bool :=
  (a.support.all (fun v => a.coeffOf v == 0)) && (a.const == 0)

/-- The value of a constant affine form; int(pw_aff_to_expr(...)) in the source succeeds
exactly when the form has no dimension dependence. -/
def Aff.constValue? (a : Aff) : Option Int :=
  if a.support.all (fun v => a.coeffOf v == 0) then some a.const else none

/-- An isl inequality constraint (Constraint.inequality_from_aff): the carried affine form is
required to be nonnegative. -/
structure Constraint where
  aff : Aff
deriving DecidableEq, Repr

/-- An isl basic set: a dimension space together with a list of inequality constraints.
Membership is name-based: an assignment satisfies the set when every constraint evaluates
nonnegatively. -/
structure BasicSet where
  space : Space
  constraints : List Constraint
deriving DecidableEq, Repr

/-- isl BasicSet.universe: no constraints. -/
def BasicSet.univ (s : Space) : BasicSet := ⟨s, []⟩

/-- isl add_constraint: append one inequality. -/
def BasicSet.add_constraint (b : BasicSet) (c : Constraint) : BasicSet :=
  ⟨b.space, b.constraints ++ [c]⟩

/-- Semantics of a basic set: the assignments satisfying every constraint. -/
def BasicSet.satisfies (b : BasicSet) (rho : String → Int) : Prop :=
  ∀ c ∈ b.constraints, 0 ≤ c.aff.eval rho

/-- Intersection of two sets whose spaces the source has already aligned; in the name-based
model the constraints accumulate and the left space is kept. -/
def BasicSet.inter (a b : BasicSet) : BasicSet := ⟨a.space, a.constraints ++ b.constraints⟩

/-- Modelled from the spec: dimension role conversion with positional reordering (islpy
move_dims as used at loop.py lines 44-46, moving one named set dimension to the end of the
parameter dimensions). The name-based constraints are unaffected. -/
def BasicSet.move_to_param_end (b : BasicSet) (n : String) : BasicSet :=
  ⟨⟨b.space.params ++ [n], b.space.setDims.filter (fun m => decide (m ≠ n))⟩, b.constraints⟩

/-- Modelled from the spec: the inverse role conversion (islpy move_dims as used at loop.py
lines 81-83, moving one named parameter dimension to the end of the set dimensions). -/
def BasicSet.move_to_set_end (b : BasicSet) (n : String) : BasicSet :=
  ⟨⟨b.space.params.filter (fun m => decide (m ≠ n)), b.space.setDims ++ [n]⟩, b.constraints⟩

/-- Whether a space holds a dimension of the given name, in either role. -/
def Space.containsName (s : Space) (n : String) : Bool :=
  decide (n ∈ s.params) || decide (n ∈ s.setDims)

/-- Modelled from the spec: alignment of two sets to one dimension space, with the relaxation
that the model may carry extra dimensions (isl align_spaces as used at loop.py lines 208 and
317). The object keeps its constraints and takes the model space, extended by any of its own
names the model lacks. -/
def align_spaces (obj : BasicSet) (model : BasicSet) : BasicSet :=
  ⟨⟨model.space.params ++ obj.space.params.filter (fun n => !(model.space.containsName n)),
    model.space.setDims ++ obj.space.setDims.filter (fun n => !(model.space.containsName n))⟩,
   obj.constraints⟩

/-- A piecewise affine function: an ordered list of (guard, affine form) pieces
(isl PwAff, as exposed by get_pieces). -/
abbrev PwAff := List (BasicSet × Aff)

/-- Comparison operators accepted by the constraint builder. -/
inductive RelOp where
  | ge
  | le
  | lt
  | gt
deriving DecidableEq, Repr

/-- Modelled from the spec: construction of an inequality constraint from an affine expression
and a comparison operator (loopy.isl_helpers.iname_rel_aff, which is repository code absent
from src). The returned form is nonnegative exactly when the named dimension stands in the
given relation to the bound; the strict forms subtract one, since dimensions are integral. -/
def iname_rel_aff (space : Space) (iname : String) (op : RelOp) (bound : Aff) : Aff :=
  match op with
  | .ge => (affOfVar iname).sub bound
  | .le => bound.sub (affOfVar iname)
  | .lt => (bound.sub (affOfVar iname)).addConst (-1)
  | .gt => ((affOfVar iname).sub bound).addConst (-1)

/-- Modelled from the spec: loopy.isl_helpers.make_slab (repository code absent from src)
builds the constraint set start ≤ iname < stop on the given space. -/
def make_slab (space : Space) (iname : String) (start stop : Aff) : BasicSet :=
  ((BasicSet.univ space).add_constraint ⟨iname_rel_aff space iname .ge start⟩).add_constraint
    ⟨iname_rel_aff space iname .lt stop⟩

/-- Python exceptions raised (or propagated) by the lowering stage. -/
inductive CodegenError where
  | notImplemented : String → CodegenError
  | runtimeError : String → CodegenError
  | nameError : String → CodegenError
  | typeError : String → CodegenError
  | valueError : String → CodegenError
  | keyError : String → CodegenError
  | assertionError : CodegenError
  | indexError : CodegenError
deriving DecidableEq, Repr

/-- Modelled from the spec: the operations of the external Presburger engine and of
loopy.isl_helpers (repository code absent from src) that this core only consumes through their
interface (spec sections 1, 6 and 9): coalescing of piecewise functions to minimal case counts,
exact integer emptiness, and the representative-bound reduction policies. Theorems quantify
over this interface; witnesses instantiate it with small concrete algebras. -/
structure SetAlgebra where
  coalesce : PwAff → PwAff
  is_empty : BasicSet → Bool
  static_min_of_pw_aff : PwAff → Bool → Except CodegenError Aff
  static_max_of_pw_aff : PwAff → Bool → Except CodegenError Aff
  static_value_of_pw_aff : PwAff → Bool → Except CodegenError Aff

/-- The bounds-computation cache the caller passes in (kernel.cache_manager): memoized exact
minimum/maximum queries of the external engine, keyed by set and set-dimension index. -/
structure CacheManager where
  dim_min : BasicSet → Nat → PwAff
  dim_max : BasicSet → Nat → PwAff

/-- Loop dimension tags (loopy.kernel.data, absent from src, modelled from the spec): the
hardware-axis tags are the UniqueTag instances and carry a hardware-axis key; sequential and
unroll dimensions are not unique-tagged. -/
inductive InameTag where
  | localIdx : Nat → InameTag
  | groupIdx : Nat → InameTag
  | sequentialTag : InameTag
  | unrollTag : InameTag
deriving DecidableEq, Repr

/-- isinstance(tag, UniqueTag) in the source. -/
def InameTag.isUnique : InameTag → Bool
  | .localIdx _ => true
  | .groupIdx _ => true
  | _ => false

/-- The hardware-axis key of a tag (tag.key in the source): tag type plus axis number. -/
def InameTag.key : InameTag → Option (Bool × Nat)
  | .localIdx ax => some (true, ax)
  | .groupIdx ax => some (false, ax)
  | _ => none

/-- Modelled from the spec: the record returned by kernel.get_iname_bounds (repository code
absent from src): piecewise lower bound, piecewise upper bound and piecewise trip count of one
dimension. -/
structure InameBounds where
  lower_bound_pw_aff : PwAff
  upper_bound_pw_aff : PwAff
  size : PwAff

/-- Modelled from the spec: the immutable kernel snapshot (spec section 3) holding the fields
the lowering stage reads. Kernel machinery that is repository code absent from src
(get_iname_bounds, the slab-increment dictionary read with default (0, 0), all_inames, the
grid-size derivation, the home-domain index, schedule entries, and the usable-iname query of
loopy.codegen.bounds) appears as interface fields; the schedule is the list of the inames of
its entries. -/
structure Kernel where
  domains : List BasicSet
  schedule : List String
  iname_to_tag : String → Option InameTag
  all_inames : List String
  get_grid_sizes : List Aff × List Aff
  index_dtype : String
  iname_slab_increments : String → Int × Int
  get_iname_bounds : String → InameBounds
  get_home_domain_index : String → Nat
  cache_manager : CacheManager
  usable_inames_for_conditional : Nat → List String

/-- Modelled from the spec: a dimension domain is always re-derived from the kernel's stored
domain list through the dimension's home domain (spec section 3 and glossary). -/
def Kernel.get_inames_domain (k : Kernel) (iname : String) : BasicSet :=
  (k.domains.get? (k.get_home_domain_index iname)).getD (BasicSet.univ ⟨[], []⟩)

/-- Modelled from the spec: the codegen state value threaded through the recursion (spec
section 2): the accumulated implemented constraints, the expression-renderer assignments, and
the fixed bindings for unrolled variables. -/
structure CodegenState where
  implemented_domain : BasicSet
  c_code_mapper : List (String × Aff)
  fixed : List (String × Aff)
deriving DecidableEq, Repr

/-- codegen_state.intersect(slab): a new state whose implemented constraints gain the slab. -/
def CodegenState.intersect (s : CodegenState) (b : BasicSet) : CodegenState :=
  { s with implemented_domain := s.implemented_domain.inter b }

/-- codegen_state.fix(iname, aff): a new state recording a fixed binding for an unrolled
variable. -/
def CodegenState.fix (s : CodegenState) (iname : String) (a : Aff) : CodegenState :=
  { s with fixed := (iname, a) :: s.fixed }

/-- The cgen code nodes the lowering stage emits. Target-language rendering is a spec non-goal,
so the For node records the counter name and the inclusive lower and upper bounds of its
step-plus-one counted loop, and the initializer node records the declared index dtype, the
bound name and its value. -/
inductive CodeBlock where
  | block : List CodeBlock → CodeBlock
  | comment : String → CodeBlock
  | line : CodeBlock
  | initializer : String → String → Aff → CodeBlock
  | forLoop : String → Aff → Aff → CodeBlock → CodeBlock

/-- loopy.codegen.gen_code_block, modelled from the spec: blocks compose by sequencing. -/
def gen_code_block (l : List CodeBlock) : CodeBlock := .block l

/-- loopy.codegen.add_comment, modelled from the spec: prefix a labelling comment when one is
given, pass the block through otherwise. -/
def add_comment : Option String → CodeBlock → CodeBlock
  | none, b => b
  | some c, b => .block [.comment c, b]

mutual

/-- Whether a block contains a counted-loop construct anywhere. -/
def CodeBlock.containsFor : CodeBlock → Bool
  | .block l => containsForList l
  | .comment _ => false
  | .line => false
  | .initializer _ _ _ => false
  | .forLoop _ _ _ _ => true

/-- Whether any block of a list contains a counted-loop construct. -/
def containsForList : List CodeBlock → Bool
  | [] => false
  | b :: rest => b.containsFor || containsForList rest

end

/-- Modelled from the spec: the recursive continuation build_loop_nest of loopy.codegen.control
(repository code absent from src); this core never inspects its result. -/
abbrev BuildLoopNest := Kernel → Nat → CodegenState → CodeBlock

/-- The inames of dom_and_slab that occur as set dimensions and are usable: these are promoted
to parameters (loop.py lines 39-46; get_var_names is read once, before any move). -/
def moved_inames_of (dom : BasicSet) (usable_inames : List String) : List String :=
  dom.space.setDims.filter (fun n => decide (n ∈ usable_inames))

/-- The promotion loop of find_bounds_and_impl_slab (loop.py lines 39-46). -/
def promote_usable_inames (dom : BasicSet) (usable_inames : List String) : BasicSet :=
  (moved_inames_of dom usable_inames).foldl BasicSet.move_to_param_end dom

/-- The demotion loop of find_bounds_and_impl_slab (loop.py lines 79-83). -/
def demote_moved_inames (b : BasicSet) (moved : List String) : BasicSet :=
  moved.foldl BasicSet.move_to_set_end b

/-- Embedding of find_bounds_and_impl_slab (loop.py lines 34-87): promote the usable inames to
parameters, query the cached exact bounds of the loop dimension, coalesce and reduce them to
one representative affine form each, build the implemented slab lower ≤ dim ≤ upper as a
two-constraint set, and move every promoted iname back into the set role, where move_dims
places it at the end of the set dimensions. -/
def find_bounds_and_impl_slab (isl : SetAlgebra) (dom_and_slab : BasicSet) (loop_iname : String)
    (usable_inames : List String) (cache_manager : CacheManager) :
    Except CodegenError (Aff × Aff × BasicSet) :=
  let moved_inames := moved_inames_of dom_and_slab usable_inames
  let d := promote_usable_inames dom_and_slab usable_inames
  match d.space.setDims.indexOf? loop_iname with
  | none => .error (.keyError loop_iname)
  | some loop_iname_idx =>
    match isl.static_min_of_pw_aff (isl.coalesce (cache_manager.dim_min d loop_iname_idx)) false with
    | .error e => .error e
    | .ok lbound =>
      match isl.static_max_of_pw_aff (isl.coalesce (cache_manager.dim_max d loop_iname_idx)) false with
      | .error e => .error e
      | .ok ubound =>
        let impl_slab :=
          ((BasicSet.univ d.space).add_constraint
              ⟨iname_rel_aff d.space loop_iname .ge lbound⟩).add_constraint
            ⟨iname_rel_aff d.space loop_iname .le ubound⟩
        .ok (lbound, ubound, demote_moved_inames impl_slab moved_inames)

/-- The NotImplementedError message of loop.py lines 113-117, which names the offending
dimension. -/
def slab_piece_error (which : String) (iname : String) : CodegenError :=
  .notImplemented (which ++ " bound for slab decomp of " ++ iname ++
    " needs conditional/has more than one piece")

/-- Embedding of get_slab_decomposition (loop.py lines 94-169). The embedding follows the
source control flow exactly, including its slip at lines 149-150: when upper_incr is zero the
else branch overwrites lower_slab with None and never assigns upper_slab, so the later read
`if upper_slab:` at line 163 raises UnboundLocalError (a NameError). Hence with a nonzero
lower increment and zero upper increment the function raises instead of returning slabs. -/
def get_slab_decomposition (isl : SetAlgebra) (kernel : Kernel) (iname : String)
    (sched_index : Nat) (codegen_state : CodegenState) :
    Except CodegenError (List (String × BasicSet)) :=
  let iname_domain := kernel.get_inames_domain iname
  if isl.is_empty iname_domain then
    .ok []
  else
    let space := iname_domain.space
    let (lower_incr, upper_incr) := kernel.iname_slab_increments iname
    if lower_incr ≠ 0 ∨ upper_incr ≠ 0 then
      let bounds := kernel.get_iname_bounds iname
      let lower_bound_pw_aff_pieces := isl.coalesce bounds.lower_bound_pw_aff
      let upper_bound_pw_aff_pieces := isl.coalesce bounds.upper_bound_pw_aff
      if 1 < lower_bound_pw_aff_pieces.length then
        .error (slab_piece_error "lower" iname)
      else if 1 < upper_bound_pw_aff_pieces.length then
        .error (slab_piece_error "upper" iname)
      else
        match lower_bound_pw_aff_pieces, upper_bound_pw_aff_pieces with
        | [(_, lower_bound_aff)], [(_, upper_bound_aff)] =>
          if lower_incr ≠ 0 ∧ ¬ (0 < lower_incr) then
            .error .assertionError
          else
            let lower_slab : Option (String × BasicSet) :=
              if lower_incr ≠ 0 then
                some ("initial", (BasicSet.univ space).add_constraint
                  ⟨iname_rel_aff space iname .lt (lower_bound_aff.addConst lower_incr)⟩)
              else none
            let lower_bulk_bound : Option Constraint :=
              if lower_incr ≠ 0 then
                some ⟨iname_rel_aff space iname .ge (lower_bound_aff.addConst lower_incr)⟩
              else none
            if upper_incr ≠ 0 then
              if ¬ (0 < upper_incr) then
                .error .assertionError
              else
                let upper_slab : String × BasicSet :=
                  ("final", (BasicSet.univ space).add_constraint
                    ⟨iname_rel_aff space iname .gt (upper_bound_aff.addConst (-upper_incr))⟩)
                let upper_bulk_bound : Constraint :=
                  ⟨iname_rel_aff space iname .le (upper_bound_aff.addConst (-upper_incr))⟩
                let bulk1 := match lower_bulk_bound with
                  | some c => (BasicSet.univ space).add_constraint c
                  | none => BasicSet.univ space
                let bulk_slab := bulk1.add_constraint upper_bulk_bound
                .ok ([("bulk", bulk_slab)]
                      ++ (match lower_slab with | some s => [s] | none => [])
                      ++ [upper_slab])
            else
              .error (.nameError "upper_slab")
        | _, _ => .error (.valueError "not enough values to unpack")
    else
      .ok [("bulk", BasicSet.univ space)]

/-- Embedding of generate_unroll_loop (loop.py lines 176-199): reduce the trip count to a
compile-time integer, reduce the coalesced lower bound to one affine form, then once per
offset bind the dimension in a fresh codegen state and recurse, concatenating the blocks in
ascending offset order. int() of a non-constant expression raises TypeError; a negative
constant makes range() empty, which Int.toNat reproduces. -/
def generate_unroll_loop (isl : SetAlgebra) (bln : BuildLoopNest) (kernel : Kernel)
    (sched_index : Nat) (codegen_state : CodegenState) : Except CodegenError CodeBlock :=
  match kernel.schedule.get? sched_index with
  | none => .error .indexError
  | some iname =>
    let bounds := kernel.get_iname_bounds iname
    match isl.static_max_of_pw_aff bounds.size true with
    | .error e => .error e
    | .ok size_aff =>
      match size_aff.constValue? with
      | none => .error (.typeError "int argument must be an integer constant")
      | some length =>
        match isl.static_value_of_pw_aff (isl.coalesce bounds.lower_bound_pw_aff) false with
        | .error e => .error e
        | .ok lower_bound_aff =>
          .ok (gen_code_block ((List.range length.toNat).map (fun i =>
            bln kernel (sched_index + 1)
              (codegen_state.fix iname (lower_bound_aff.addConst (Int.ofNat i))))))

/-- Embedding of intersect_kernel_with_slab (loop.py lines 204-211): replace the home domain of
the dimension by its intersection with the space-aligned slab and keep every other kernel field,
the grid-size derivation included, exactly as the source's copy call with an explicit
get_grid_sizes keyword does. An out-of-range home index is a Python IndexError. -/
def intersect_kernel_with_slab (kernel : Kernel) (slab : BasicSet) (iname : String) :
    Except CodegenError Kernel :=
  let hdi := kernel.get_home_domain_index iname
  match kernel.domains.get? hdi with
  | none => .error .indexError
  | some home_domain =>
    .ok { kernel with
            domains := kernel.domains.set hdi
              (home_domain.inter (align_spaces slab home_domain)) }

/-- The other-dimensions-sharing-this-hardware-axis-key computation of loop.py lines 226-230. -/
def other_inames_with_same_tag (kernel : Kernel) (iname : String) (tag : InameTag) :
    List String :=
  kernel.all_inames.filter (fun other =>
    (match kernel.iname_to_tag other with
     | some t => t.isUnique && (t.key == tag.key)
     | none => false) && (other != iname))

/-- The hardware axis size lookup of loop.py lines 234-239: the local work-size vector for a
local index tag, the global one for a group index tag, RuntimeError otherwise; an out-of-range
axis is a Python IndexError. -/
def hw_axis_size_of (kernel : Kernel) (tag : InameTag) : Except CodegenError Aff :=
  match tag with
  | .localIdx ax =>
    match kernel.get_grid_sizes.2.get? ax with
    | some s => .ok s
    | none => .error .indexError
  | .groupIdx ax =>
    match kernel.get_grid_sizes.1.get? ax with
    | some s => .ok s
    | none => .error .indexError
  | _ => .error (.runtimeError "unknown hardware parallel tag")

/-- The per-slab loop of set_up_hw_parallel_loop from line 259 on, as its own definition so the
state it receives is observable. It first runs the slab decomposition, then rejects shared
hardware-axis keys with more than one slab, and then iterates over the slabs. Every iteration
of the source loop calls codegen_state.copy_and_assign(iname, ) with a blank slot where the
value to bind belongs (loop.py lines 279-283); the assignment facility, modelled from the spec,
binds a name to a value, so the call is missing one required positional argument and raises
TypeError on the first slab. An empty slab list skips the loop and returns the empty block. -/
def hw_loop_over_slabs (isl : SetAlgebra) (bln : BuildLoopNest) (kernel : Kernel)
    (sched_index : Nat) (iname : String) (other : List String)
    (codegen_state : CodegenState) : Except CodegenError CodeBlock :=
  match get_slab_decomposition isl kernel iname sched_index codegen_state with
  | .error e => .error e
  | .ok slabs =>
    if other ≠ [] ∧ 1 < slabs.length then
      .error (.runtimeError
        "cannot do slab decomposition on inames that share a tag with other inames")
    else
      match slabs with
      | [] => .ok (gen_code_block [])
      | _ :: _ => .error (.typeError "copy_and_assign missing 1 required positional argument")

/-- Embedding of set_up_hw_parallel_loop (loop.py lines 216-290): check the unique tag, collect
the other dimensions sharing the hardware-axis key, read the axis size, reduce the lower bound,
build the hardware-implemented slab lower_bound ≤ iname < lower_bound + axis_size, intersect it
into the codegen state, and hand the intersected state to the per-slab stage. -/
def set_up_hw_parallel_loop (isl : SetAlgebra) (bln : BuildLoopNest) (kernel : Kernel)
    (sched_index : Nat) (codegen_state : CodegenState) : Except CodegenError CodeBlock :=
  match kernel.schedule.get? sched_index with
  | none => .error .indexError
  | some iname =>
    match kernel.iname_to_tag iname with
    | none => .error .assertionError
    | some tag =>
      if tag.isUnique then
        let other := other_inames_with_same_tag kernel iname tag
        match hw_axis_size_of kernel tag with
        | .error e => .error e
        | .ok hw_axis_size =>
          match isl.static_value_of_pw_aff
              (kernel.get_iname_bounds iname).lower_bound_pw_aff false with
          | .error e => .error e
          | .ok lower_bound =>
            let slab := make_slab (kernel.get_inames_domain iname).space iname
              lower_bound (lower_bound.add hw_axis_size)
            hw_loop_over_slabs isl bln kernel sched_index iname other
              (codegen_state.intersect slab)
      else
        .error .assertionError

/-- The per-slab body of generate_sequential_loop_dim_code (loop.py lines 312-349), carrying
the domain the source rebinds at line 317 across iterations. It aligns the domain with the
slab, intersects, extracts the bounds and implemented slab, recurses with the implemented slab
added to the state, optionally emits the labelling comment, and then emits either the
degenerate single-trip binding (when upper minus lower is plainly zero) or the counted loop. -/
def generate_sequential_slab_code (isl : SetAlgebra) (bln : BuildLoopNest) (kernel : Kernel)
    (sched_index : Nat) (loop_iname : String) (usable_inames : List String) (nslabs : Nat)
    (codegen_state : CodegenState) (domain : BasicSet) (slab_pair : String × BasicSet) :
    Except CodegenError (BasicSet × List CodeBlock) :=
  let cmt : Option String :=
    if nslabs == 1 then none else some (slab_pair.1 ++ " slab for " ++ loop_iname)
  let domain := align_spaces domain slab_pair.2
  let dom_and_slab := domain.inter slab_pair.2
  match find_bounds_and_impl_slab isl dom_and_slab loop_iname usable_inames
      kernel.cache_manager with
  | .error e => .error e
  | .ok (lbound, ubound, impl_slab) =>
    let inner := bln kernel (sched_index + 1) (codegen_state.intersect impl_slab)
    let cmtBlocks : List CodeBlock :=
      match cmt with
      | none => []
      | some c => [.comment c]
    let body : CodeBlock :=
      if (ubound.sub lbound).plain_is_zero then
        gen_code_block [.initializer kernel.index_dtype loop_iname lbound, .line, inner]
      else
        .forLoop loop_iname lbound ubound inner
    .ok (domain, cmtBlocks ++ [body])

/-- Embedding of generate_sequential_loop_dim_code (loop.py lines 297-351): decompose into
slabs, then run the per-slab body over them in order, threading the domain variable and
accumulating the emitted blocks into one code block. -/
def generate_sequential_loop_dim_code (isl : SetAlgebra) (bln : BuildLoopNest) (kernel : Kernel)
    (sched_index : Nat) (codegen_state : CodegenState) : Except CodegenError CodeBlock :=
  match kernel.schedule.get? sched_index with
  | none => .error .indexError
  | some loop_iname =>
    match get_slab_decomposition isl kernel loop_iname sched_index codegen_state with
    | .error e => .error e
    | .ok slabs =>
      let usable_inames := kernel.usable_inames_for_conditional sched_index
      let domain0 := kernel.get_inames_domain loop_iname
      match slabs.foldlM
          (fun (acc : BasicSet × List CodeBlock) sp =>
            (match generate_sequential_slab_code isl bln kernel sched_index loop_iname
                usable_inames slabs.length codegen_state acc.1 sp with
             | .error e => .error e
             | .ok (dom2, newBlocks) => .ok (dom2, acc.2 ++ newBlocks) :
              Except CodegenError (BasicSet × List CodeBlock)))
          (domain0, ([] : List CodeBlock)) with
      | .error e => (.error e : Except CodegenError CodeBlock)
      | .ok acc => .ok (gen_code_block acc.2)

/-! Helper lemmas about the affine-form semantics. -/

theorem sum_map_neg_mul (l : List (String × Int)) (rho : String → Int) :
    (l.map (fun p => -(p.2 * rho p.1))).sum = -((l.map (fun p => p.2 * rho p.1)).sum) := by
  induction l with
  | nil => simp
  | cons x xs ih =>
    simp only [List.map_cons, List.sum_cons, ih]
    ring

theorem Aff.eval_affOfVar (v : String) (rho : String → Int) :
    (affOfVar v).eval rho = rho v := by
  simp [affOfVar, Aff.eval]

theorem Aff.eval_constAff (k : Int) (rho : String → Int) :
    (constAff k).eval rho = k := by
  simp [constAff, Aff.eval]

theorem Aff.eval_add (a b : Aff) (rho : String → Int) :
    (a.add b).eval rho = a.eval rho + b.eval rho := by
  simp [Aff.add, Aff.eval, List.map_append, List.sum_append]
  ring

theorem Aff.eval_sub (a b : Aff) (rho : String → Int) :
    (a.sub b).eval rho = a.eval rho - b.eval rho := by
  simp only [Aff.sub, Aff.eval, List.map_append, List.sum_append, List.map_map]
  have h : ((fun p : String × Int => p.2 * rho p.1) ∘ fun p : String × Int => (p.1, -p.2))
      = fun p : String × Int => -(p.2 * rho p.1) := by
    funext p
    simp [neg_mul]
  rw [h, sum_map_neg_mul]
  ring

theorem Aff.eval_addConst (a : Aff) (k : Int) (rho : String → Int) :
    (a.addConst k).eval rho = a.eval rho + k := by
  simp [Aff.addConst, Aff.eval]
  ring

/-- Semantics of the modelled make_slab: exactly the points with start ≤ iname < stop. -/
theorem make_slab_satisfies (sp : Space) (iname : String) (start stop : Aff)
    (rho : String → Int) :
    (make_slab sp iname start stop).satisfies rho
      ↔ (start.eval rho ≤ rho iname ∧ rho iname < stop.eval rho) := by
  simp only [make_slab, BasicSet.add_constraint, BasicSet.univ, BasicSet.satisfies,
    iname_rel_aff, List.nil_append, List.mem_append, List.mem_singleton]
  constructor
  · intro h
    have h1 := h ⟨(affOfVar iname).sub start⟩ (Or.inl rfl)
    have h2 := h ⟨((stop).sub (affOfVar iname)).addConst (-1)⟩ (Or.inr rfl)
    simp only [Aff.eval_sub, Aff.eval_affOfVar, Aff.eval_addConst] at h1 h2
    omega
  · intro h c hc
    rcases hc with hc | hc <;> subst hc <;>
      simp only [Aff.eval_sub, Aff.eval_affOfVar, Aff.eval_addConst] <;> omega

/-! Helper lemmas about the dimension-role moving loops. -/

theorem foldl_move_to_param_end_space (m : List String) (b : BasicSet) :
    ((m.foldl BasicSet.move_to_param_end b).space.params = b.space.params ++ m)
    ∧ ((m.foldl BasicSet.move_to_param_end b).space.setDims
        = b.space.setDims.filter (fun n => decide (n ∉ m)))
    ∧ ((m.foldl BasicSet.move_to_param_end b).constraints = b.constraints) := by
  induction m generalizing b with
  | nil =>
    refine ⟨by simp, ?_, rfl⟩
    have h : (fun n : String => decide (n ∉ ([] : List String))) = fun _ => true := by
      funext n
      simp
    simp [h]
  | cons a m ih =>
    obtain ⟨ih1, ih2, ih3⟩ := ih (b.move_to_param_end a)
    refine ⟨?_, ?_, ?_⟩
    · rw [List.foldl_cons, ih1]
      simp [BasicSet.move_to_param_end]
    · rw [List.foldl_cons, ih2]
      simp only [BasicSet.move_to_param_end]
      rw [List.filter_filter]
      have h : ∀ n : String, (decide (n ∉ m) && decide (n ≠ a)) = decide (n ∉ a :: m) := by
        intro n
        by_cases h1 : n = a <;> by_cases h2 : n ∈ m <;> simp [h1, h2]
      calc b.space.setDims.filter (fun n => decide (n ∉ m) && decide (n ≠ a))
          = b.space.setDims.filter (fun n => decide (n ∉ a :: m)) := by
            apply List.filter_congr
            intro n _
            exact h n
        _ = _ := rfl
    · rw [List.foldl_cons, ih3]
      rfl

theorem foldl_move_to_set_end_space (m : List String) (b : BasicSet) :
    ((m.foldl BasicSet.move_to_set_end b).space.params
        = b.space.params.filter (fun n => decide (n ∉ m)))
    ∧ ((m.foldl BasicSet.move_to_set_end b).space.setDims = b.space.setDims ++ m)
    ∧ ((m.foldl BasicSet.move_to_set_end b).constraints = b.constraints) := by
  induction m generalizing b with
  | nil =>
    refine ⟨?_, by simp, rfl⟩
    have h : (fun n : String => decide (n ∉ ([] : List String))) = fun _ => true := by
      funext n
      simp
    simp [h]
  | cons a m ih =>
    obtain ⟨ih1, ih2, ih3⟩ := ih (b.move_to_set_end a)
    refine ⟨?_, ?_, ?_⟩
    · rw [List.foldl_cons, ih1]
      simp only [BasicSet.move_to_set_end]
      rw [List.filter_filter]
      have h : ∀ n : String, (decide (n ∉ m) && decide (n ≠ a)) = decide (n ∉ a :: m) := by
        intro n
        by_cases h1 : n = a <;> by_cases h2 : n ∈ m <;> simp [h1, h2]
      apply List.filter_congr
      intro n _
      exact h n
    · rw [List.foldl_cons, ih2]
      simp [BasicSet.move_to_set_end]
    · rw [List.foldl_cons, ih3]
      rfl

/-! Helper lemmas about list updates and loop-construct detection. -/

theorem list_get?_set_self {α : Type} (l : List α) (i : Nat) (a : α) (h : i < l.length) :
    (l.set i a).get? i = some a := by
  induction l generalizing i with
  | nil => simp at h
  | cons x xs ih =>
    cases i with
    | zero => rfl
    | succ j =>
      simp only [List.set, List.get?]
      exact ih j (by simpa using h)

theorem list_get?_set_ne {α : Type} (l : List α) (i j : Nat) (a : α) (h : i ≠ j) :
    (l.set i a).get? j = l.get? j := by
  induction l generalizing i j with
  | nil => simp
  | cons x xs ih =>
    cases i with
    | zero =>
      cases j with
      | zero => exact absurd rfl h
      | succ k => rfl
    | succ i2 =>
      cases j with
      | zero => rfl
      | succ k =>
        simp only [List.set, List.get?]
        exact ih i2 k (by omega)

theorem containsForList_eq_false {l : List CodeBlock}
    (h : ∀ b ∈ l, b.containsFor = false) : containsForList l = false := by
  induction l with
  | nil => rfl
  | cons b rest ih =>
    simp only [containsForList, Bool.or_eq_false_iff]
    exact ⟨h b (List.mem_cons_self b rest), ih (fun x hx => h x (List.mem_cons_of_mem b hx))⟩

/-! Concrete fixtures used by witnesses and counterexamples. -/

/-- The empty dimension space. -/
def emptyS : Space := ⟨[], []⟩

/-- A one-dimensional space over the set dimension i. -/
def spI : Space := ⟨[], ["i"]⟩

/-- A two-dimensional space over the set dimensions i and j. -/
def spIJ : Space := ⟨[], ["i", "j"]⟩

/-- The unconstrained one-dimensional domain of i. -/
def domI : BasicSet := BasicSet.univ spI

/-- An empty domain of i: it carries the unsatisfiable constraint -1 ≥ 0. -/
def domIEmpty : BasicSet := ⟨spI, [⟨⟨[], -1⟩⟩]⟩

/-- An initial codegen state with nothing implemented, assigned or fixed. -/
def st0 : CodegenState := ⟨BasicSet.univ emptyS, [], []⟩

/-- A trivial continuation standing in for build_loop_nest in witnesses. -/
def trivBln : BuildLoopNest := fun _ _ _ => .block []

/-- A single-piece piecewise constant. -/
def pwConst (k : Int) : PwAff := [(BasicSet.univ emptyS, constAff k)]

/-- Iname bounds whose pieces are single constants. -/
def mkBounds (lo hi size : Int) : InameBounds := ⟨pwConst lo, pwConst hi, pwConst size⟩

/-- The reduction policy used by the witness algebra: take the first piece of a piecewise
affine function, failing on an empty one. -/
def firstPiece : PwAff → Bool → Except CodegenError Aff := fun pw _ =>
  match pw with
  | (_, a) :: _ => .ok a
  | [] => .error (.valueError "empty piecewise affine")

/-- A small concrete set algebra for witness evaluation: coalescing is the identity, emptiness
is the sound syntactic check for a constraint 0 ≥ negative constant (exact on the fixture
domains of this file, whose emptiness is always witnessed by such a constraint), and all three
reduction policies take the first piece. -/
def witAlg : SetAlgebra :=
  ⟨id,
   fun b => b.constraints.any (fun c => c.aff.coeffs.isEmpty && decide (c.aff.const < 0)),
   firstPiece, firstPiece, firstPiece⟩

/-- A cache manager answering constant zero for both bounds. -/
def cmZero : CacheManager := ⟨fun _ _ => pwConst 0, fun _ _ => pwConst 0⟩

/-- A cache manager answering lower bound zero and upper bound three. -/
def cmRange : CacheManager := ⟨fun _ _ => pwConst 0, fun _ _ => pwConst 3⟩

/-- Fixture kernel for C1: one sequential dimension i with slab increments (1, 0). -/
def c1Kernel : Kernel :=
  { domains := [domI]
    schedule := ["i"]
    iname_to_tag := fun _ => some .sequentialTag
    all_inames := ["i"]
    get_grid_sizes := ([], [])
    index_dtype := "int32"
    iname_slab_increments := fun _ => (1, 0)
    get_iname_bounds := fun _ => mkBounds 0 15 16
    get_home_domain_index := fun _ => 0
    cache_manager := cmZero
    usable_inames_for_conditional := fun _ => [] }

/-- Fixture kernel for C2 and C7: one hardware dimension i on local axis 0 of size 8, with no
slab increments. -/
def c2Kernel : Kernel :=
  { domains := [domI]
    schedule := ["i"]
    iname_to_tag := fun _ => some (.localIdx 0)
    all_inames := ["i"]
    get_grid_sizes := ([], [constAff 8])
    index_dtype := "int32"
    iname_slab_increments := fun _ => (0, 0)
    get_iname_bounds := fun _ => mkBounds 0 7 8
    get_home_domain_index := fun _ => 0
    cache_manager := cmZero
    usable_inames_for_conditional := fun _ => [] }

/-- Fixture kernel for C4: dimensions i and j share local axis 0, and i has upper slab
increment 1, which decomposes into a bulk and a final slab. -/
def c4Kernel : Kernel :=
  { domains := [BasicSet.univ spIJ]
    schedule := ["i"]
    iname_to_tag := fun _ => some (.localIdx 0)
    all_inames := ["i", "j"]
    get_grid_sizes := ([], [constAff 16])
    index_dtype := "int32"
    iname_slab_increments := fun _ => (0, 1)
    get_iname_bounds := fun _ => mkBounds 0 15 16
    get_home_domain_index := fun _ => 0
    cache_manager := cmZero
    usable_inames_for_conditional := fun _ => [] }

/-- Fixture kernel for C5: dimension i has lower slab increment 1 but its lower bound stays
piecewise with two pieces after coalescing. -/
def c5Kernel : Kernel :=
  { domains := [domI]
    schedule := ["i"]
    iname_to_tag := fun _ => some .sequentialTag
    all_inames := ["i"]
    get_grid_sizes := ([], [])
    index_dtype := "int32"
    iname_slab_increments := fun _ => (1, 0)
    get_iname_bounds := fun _ =>
      ⟨[(BasicSet.univ emptyS, constAff 0), (BasicSet.univ emptyS, constAff 5)],
       pwConst 9, pwConst 10⟩
    get_home_domain_index := fun _ => 0
    cache_manager := cmZero
    usable_inames_for_conditional := fun _ => [] }

/-- Fixture kernel for sequential lowering with a single-trip dimension (bounds 0 ≤ i ≤ 0). -/
def c6zKernel : Kernel :=
  { domains := [domI]
    schedule := ["i"]
    iname_to_tag := fun _ => some .sequentialTag
    all_inames := ["i"]
    get_grid_sizes := ([], [])
    index_dtype := "int32"
    iname_slab_increments := fun _ => (0, 0)
    get_iname_bounds := fun _ => mkBounds 0 0 1
    get_home_domain_index := fun _ => 0
    cache_manager := cmZero
    usable_inames_for_conditional := fun _ => [] }

/-- Fixture kernel for sequential lowering with a proper loop (bounds 0 ≤ i ≤ 3). -/
def c6rKernel : Kernel :=
  { domains := [domI]
    schedule := ["i"]
    iname_to_tag := fun _ => some .sequentialTag
    all_inames := ["i"]
    get_grid_sizes := ([], [])
    index_dtype := "int32"
    iname_slab_increments := fun _ => (0, 0)
    get_iname_bounds := fun _ => mkBounds 0 3 4
    get_home_domain_index := fun _ => 0
    cache_manager := cmRange
    usable_inames_for_conditional := fun _ => [] }

/-- Fixture kernel for C8: an unrolled dimension i with constant trip count 4 and lower
bound 0. -/
def c8Kernel : Kernel :=
  { domains := [domI]
    schedule := ["i"]
    iname_to_tag := fun _ => some .unrollTag
    all_inames := ["i"]
    get_grid_sizes := ([], [])
    index_dtype := "int32"
    iname_slab_increments := fun _ => (0, 0)
    get_iname_bounds := fun _ => mkBounds 0 3 4
    get_home_domain_index := fun _ => 0
    cache_manager := cmZero
    usable_inames_for_conditional := fun _ => [] }

/-- Fixture kernel for C9 with an empty domain for i. -/
def c9aKernel : Kernel :=
  { domains := [domIEmpty]
    schedule := ["i"]
    iname_to_tag := fun _ => some .sequentialTag
    all_inames := ["i"]
    get_grid_sizes := ([], [])
    index_dtype := "int32"
    iname_slab_increments := fun _ => (1, 1)
    get_iname_bounds := fun _ => mkBounds 0 0 1
    get_home_domain_index := fun _ => 0
    cache_manager := cmZero
    usable_inames_for_conditional := fun _ => [] }

/-- The implemented slab of the single-trip sequential fixture: 0 ≤ i ≤ 0. -/
def c6zImpl : BasicSet := ⟨spI, [⟨⟨[("i", 1)], 0⟩⟩, ⟨⟨[("i", -1)], 0⟩⟩]⟩

/-- The implemented slab of the four-trip sequential fixture: 0 ≤ i ≤ 3. -/
def c6rImpl : BasicSet := ⟨spI, [⟨⟨[("i", 1)], 0⟩⟩, ⟨⟨[("i", -1)], 3⟩⟩]⟩

/-- Fixture domain for C3: set dimensions in the order j then i. -/
def c3Dom : BasicSet := BasicSet.univ ⟨[], ["j", "i"]⟩

/-- The implemented slab find_bounds_and_impl_slab returns on the C3 fixture: the promoted
iname j has been appended after i, so the set dimensions come back as i then j. -/
def c3Impl : BasicSet := ⟨⟨[], ["i", "j"]⟩, [⟨⟨[("i", 1)], 0⟩⟩, ⟨⟨[("i", -1)], 0⟩⟩]⟩

/-- The space and constraints of the implemented slab after the demotion loop: the parameters
come back unchanged, the promoted inames land after the remaining set dimensions, and the two
bound constraints survive untouched. Stated for domains whose parameter names do not collide
with their set-dimension names, as isl spaces require. -/
theorem demote_impl_slab_space (dom : BasicSet) (usable : List String) (c1 c2 : Constraint)
    (hdisj : ∀ n ∈ dom.space.params, n ∉ dom.space.setDims) :
    ((demote_moved_inames
        (((BasicSet.univ (promote_usable_inames dom usable).space).add_constraint
            c1).add_constraint c2)
        (moved_inames_of dom usable)).space.params = dom.space.params)
    ∧ ((demote_moved_inames
        (((BasicSet.univ (promote_usable_inames dom usable).space).add_constraint
            c1).add_constraint c2)
        (moved_inames_of dom usable)).space.setDims
        = dom.space.setDims.filter (fun n => decide (n ∉ usable))
          ++ moved_inames_of dom usable)
    ∧ ((demote_moved_inames
        (((BasicSet.univ (promote_usable_inames dom usable).space).add_constraint
            c1).add_constraint c2)
        (moved_inames_of dom usable)).constraints = [c1, c2]) := by
  obtain ⟨hp1, hp2, hp3⟩ := foldl_move_to_param_end_space (moved_inames_of dom usable) dom
  obtain ⟨hq1, hq2, hq3⟩ := foldl_move_to_set_end_space (moved_inames_of dom usable)
    (((BasicSet.univ (promote_usable_inames dom usable).space).add_constraint
        c1).add_constraint c2)
  have hMsub : ∀ n ∈ moved_inames_of dom usable, n ∈ dom.space.setDims := by
    intro n hn
    exact List.mem_of_mem_filter hn
  have hMusable : ∀ n ∈ dom.space.setDims,
      (n ∈ moved_inames_of dom usable ↔ n ∈ usable) := by
    intro n hn
    constructor
    · intro hM
      have := (List.mem_filter.mp hM).2
      simpa using this
    · intro hU
      exact List.mem_filter.mpr ⟨hn, by simpa using hU⟩
  have hsp : (((BasicSet.univ (promote_usable_inames dom usable).space).add_constraint
      c1).add_constraint c2).space = (promote_usable_inames dom usable).space := rfl
  refine ⟨?_, ?_, ?_⟩
  · simp only [demote_moved_inames] at *
    rw [hq1, hsp]
    simp only [promote_usable_inames] at *
    rw [hp1, List.filter_append]
    have h1 : (moved_inames_of dom usable).filter
        (fun n => decide (n ∉ moved_inames_of dom usable)) = [] := by
      apply List.filter_eq_nil_iff.mpr
      intro a ha
      simp [ha]
    have h2 : dom.space.params.filter
        (fun n => decide (n ∉ moved_inames_of dom usable)) = dom.space.params := by
      apply List.filter_eq_self.mpr
      intro a ha
      have hnotS : a ∉ dom.space.setDims := hdisj a ha
      have hnotM : a ∉ moved_inames_of dom usable := fun hM => hnotS (hMsub a hM)
      simp [hnotM]
    rw [h1, h2, List.append_nil]
  · simp only [demote_moved_inames] at *
    rw [hq2, hsp]
    simp only [promote_usable_inames] at *
    rw [hp2]
    congr 1
    apply List.filter_congr
    intro n hn
    have := hMusable n hn
    exact decide_eq_decide.mpr (not_congr this)
  · simp only [demote_moved_inames] at *
    rw [hq3]
    rfl

/-! Claim theorems. -/

/-- C1. The claim says that with lower_increment > 0 (and single-piece bounds) the
decomposition returns a bulk slab tightened to dimension ≥ lower_bound + lower_increment plus
an initial slab, for every upper_increment ≥ 0. The code instead, whenever upper_incr is zero,
overwrites lower_slab with None in the else branch of the upper-increment test (loop.py lines
149-150, an evident copy-paste slip of the lower branch) and then reads the never-assigned
upper_slab at line 163, raising UnboundLocalError. This theorem evaluates the embedded code at
the failing input: increments (1, 0), nonempty domain, constant single-piece bounds. -/
theorem c1_lower_increment_only_raises_name_error :
    get_slab_decomposition witAlg c1Kernel "i" 0 st0 = .error (.nameError "upper_slab") := rfl

/-- C2. The claim says set_up_hw_parallel_loop binds the dimension via the codegen state's
assignment facility and recurses per slab, labelling when several slabs exist. The source
instead calls codegen_state.copy_and_assign(iname, ) with a blank slot where the value to bind
belongs (loop.py lines 279-283), so the first slab iteration raises a TypeError and no kernel
snapshot recursion or labelling ever happens. This theorem evaluates the embedded code on a
one-slab hardware kernel. -/
theorem c2_hw_parallel_loop_raises_type_error :
    set_up_hw_parallel_loop witAlg trivBln c2Kernel 0 st0
      = .error (.typeError "copy_and_assign missing 1 required positional argument") := rfl

/-- C4: if another dimension shares the hardware-axis key and the slab decomposition yields
more than one slab, set_up_hw_parallel_loop raises the fatal configuration error
(loop.py lines 262-264) and produces no code block. -/
theorem c4_shared_axis_multi_slab_rejected {isl : SetAlgebra} {bln : BuildLoopNest}
    {kernel : Kernel} {sched_index : Nat} {st : CodegenState} {iname : String} {tag : InameTag}
    {S L : Aff} {slabs : List (String × BasicSet)}
    (hsched : kernel.schedule.get? sched_index = some iname)
    (htag : kernel.iname_to_tag iname = some tag)
    (huniq : tag.isUnique = true)
    (hsize : hw_axis_size_of kernel tag = .ok S)
    (hlb : isl.static_value_of_pw_aff (kernel.get_iname_bounds iname).lower_bound_pw_aff false
      = .ok L)
    (hother : other_inames_with_same_tag kernel iname tag ≠ [])
    (hslabs : get_slab_decomposition isl kernel iname sched_index
        (st.intersect (make_slab (kernel.get_inames_domain iname).space iname L (L.add S)))
      = .ok slabs)
    (hlen : 1 < slabs.length) :
    set_up_hw_parallel_loop isl bln kernel sched_index st
      = .error (.runtimeError
          "cannot do slab decomposition on inames that share a tag with other inames") := by
  simp only [set_up_hw_parallel_loop, hsched, htag, huniq, if_true, hsize, hlb,
    hw_loop_over_slabs, hslabs]
  rw [if_pos ⟨hother, hlen⟩]

/-- Witness for C4 on the fixture kernel whose dimensions i and j share local axis 0 while the
decomposition of i yields a bulk and a final slab. -/
theorem c4_witness :
    set_up_hw_parallel_loop witAlg trivBln c4Kernel 0 st0
      = .error (.runtimeError
          "cannot do slab decomposition on inames that share a tag with other inames") :=
  c4_shared_axis_multi_slab_rejected rfl rfl rfl rfl rfl (by decide) rfl (by decide)

/-- C5: with a nonzero slab increment and a (coalesced) lower or upper bound of more than one
piece, get_slab_decomposition raises the configuration error that names the offending
dimension (loop.py lines 112-117) and returns no slabs. The nonempty-domain hypothesis
reflects that line 97 returns early on an empty domain (whose derived bounds could not have
pieces anyway). -/
theorem c5_piecewise_bound_rejected {isl : SetAlgebra} {kernel : Kernel} {iname : String}
    {l u : Int} (sched_index : Nat) (st : CodegenState)
    (hne : isl.is_empty (kernel.get_inames_domain iname) = false)
    (hincr : kernel.iname_slab_increments iname = (l, u))
    (hnz : l ≠ 0 ∨ u ≠ 0)
    (hp : 1 < (isl.coalesce (kernel.get_iname_bounds iname).lower_bound_pw_aff).length
        ∨ 1 < (isl.coalesce (kernel.get_iname_bounds iname).upper_bound_pw_aff).length) :
    get_slab_decomposition isl kernel iname sched_index st
        = .error (slab_piece_error "lower" iname)
    ∨ get_slab_decomposition isl kernel iname sched_index st
        = .error (slab_piece_error "upper" iname) := by
  by_cases hL : 1 < (isl.coalesce (kernel.get_iname_bounds iname).lower_bound_pw_aff).length
  · left
    simp only [get_slab_decomposition, hne, Bool.false_eq_true, if_false, hincr]
    rw [if_pos hnz, if_pos hL]
  · right
    have hU := hp.resolve_left hL
    simp only [get_slab_decomposition, hne, Bool.false_eq_true, if_false, hincr]
    rw [if_pos hnz, if_neg hL, if_pos hU]

/-- Witness for C5 on the fixture kernel whose lower bound keeps two pieces. -/
theorem c5_witness :
    get_slab_decomposition witAlg c5Kernel "i" 0 st0 = .error (slab_piece_error "lower" "i")
    ∨ get_slab_decomposition witAlg c5Kernel "i" 0 st0
        = .error (slab_piece_error "upper" "i") :=
  c5_piecewise_bound_rejected 0 st0 rfl rfl (Or.inl (by decide)) (Or.inl (by decide))

/-- C9: get_slab_decomposition returns the empty sequence on an empty domain (loop.py lines
97-98), and on a nonempty domain with both slab increments zero it returns the single bulk
slab equal to the universe of the domain's space (loop.py lines 168-169). -/
theorem c9_empty_domain_and_bulk_universe (isl : SetAlgebra) (kernel : Kernel) (iname : String)
    (sched_index : Nat) (st : CodegenState) :
    (isl.is_empty (kernel.get_inames_domain iname) = true →
      get_slab_decomposition isl kernel iname sched_index st = .ok [])
    ∧ (isl.is_empty (kernel.get_inames_domain iname) = false →
      kernel.iname_slab_increments iname = (0, 0) →
      get_slab_decomposition isl kernel iname sched_index st
        = .ok [("bulk", BasicSet.univ (kernel.get_inames_domain iname).space)]) := by
  constructor
  · intro h
    simp [get_slab_decomposition, h]
  · intro h1 h2
    simp [get_slab_decomposition, h1, h2]

/-- Witness for C9: an empty fixture domain gives no slabs; the unconstrained fixture domain
with increments (0, 0) gives the single universe bulk slab. -/
theorem c9_witness :
    get_slab_decomposition witAlg c9aKernel "i" 0 st0 = .ok []
    ∧ get_slab_decomposition witAlg c6zKernel "i" 0 st0
        = .ok [("bulk", BasicSet.univ (c6zKernel.get_inames_domain "i").space)] :=
  ⟨(c9_empty_domain_and_bulk_universe witAlg c9aKernel "i" 0 st0).1 rfl,
   (c9_empty_domain_and_bulk_universe witAlg c6zKernel "i" 0 st0).2 rfl rfl⟩

/-- C3 counterexample. The claim says every promoted iname is moved back to its original
set-dimension position so the slab's dimension space matches the caller's ordering. On the
concrete domain with set dimensions [j, i] and usable iname j, the promoted j comes back at
the end: the returned slab's set dimensions are [i, j], not the caller's [j, i]. -/
theorem c3_counterexample :
    find_bounds_and_impl_slab witAlg c3Dom "i" ["j"] cmZero
      = .ok (constAff 0, constAff 0, c3Impl)
    ∧ c3Impl.space.setDims = ["i", "j"]
    ∧ c3Dom.space.setDims = ["j", "i"]
    ∧ ¬ (["i", "j"] = (["j", "i"] : List String)) :=
  ⟨rfl, rfl, rfl, by decide⟩

/-- C3 (amended): find_bounds_and_impl_slab returns an implemented slab equal to the
conjunction dimension ≥ lower_bound ∧ dimension ≤ upper_bound; every promoted iname is moved
back from the parameter role into the set role, but appended after the remaining set
dimensions (in their original relative order), so the slab keeps the caller's dimension names
while its ordering matches the caller's only when every promoted iname originally followed all
non-promoted set dimensions. Stated for domains whose parameter and set names do not
collide, as isl spaces require. -/
theorem c3_impl_slab_bounds_and_space {isl : SetAlgebra} {dom : BasicSet} {loop_iname : String}
    {usable : List String} {cm : CacheManager} {lb ub : Aff} {impl : BasicSet}
    (hdisj : ∀ n ∈ dom.space.params, n ∉ dom.space.setDims)
    (hres : find_bounds_and_impl_slab isl dom loop_iname usable cm = .ok (lb, ub, impl)) :
    impl.space.params = dom.space.params
    ∧ impl.space.setDims
        = dom.space.setDims.filter (fun n => decide (n ∉ usable)) ++ moved_inames_of dom usable
    ∧ impl.constraints
        = [⟨iname_rel_aff (promote_usable_inames dom usable).space loop_iname .ge lb⟩,
           ⟨iname_rel_aff (promote_usable_inames dom usable).space loop_iname .le ub⟩]
    ∧ (∀ rho, impl.satisfies rho
        ↔ (lb.eval rho ≤ rho loop_iname ∧ rho loop_iname ≤ ub.eval rho)) := by
  simp only [find_bounds_and_impl_slab] at hres
  cases hix : List.indexOf? loop_iname (promote_usable_inames dom usable).space.setDims with
  | none =>
    simp [hix] at hres
  | some idx =>
    simp only [hix] at hres
    cases hmin : isl.static_min_of_pw_aff
        (isl.coalesce (cm.dim_min (promote_usable_inames dom usable) idx)) false with
    | error e =>
      simp [hmin] at hres
    | ok lbound =>
      simp only [hmin] at hres
      cases hmax : isl.static_max_of_pw_aff
          (isl.coalesce (cm.dim_max (promote_usable_inames dom usable) idx)) false with
      | error e =>
        simp [hmax] at hres
      | ok ubound =>
        simp only [hmax] at hres
        simp only [Except.ok.injEq, Prod.mk.injEq] at hres
        obtain ⟨hlb, hub, himpl⟩ := hres
        subst hlb
        subst hub
        subst himpl
        obtain ⟨g1, g2, g3⟩ := demote_impl_slab_space dom usable
          ⟨iname_rel_aff (promote_usable_inames dom usable).space loop_iname .ge lbound⟩
          ⟨iname_rel_aff (promote_usable_inames dom usable).space loop_iname .le ubound⟩
          hdisj
        refine ⟨g1, g2, g3, ?_⟩
        intro rho
        simp only [BasicSet.satisfies]
        rw [g3]
        simp only [List.mem_cons, List.not_mem_nil, or_false, forall_eq_or_imp, forall_eq,
          iname_rel_aff, Aff.eval_sub, Aff.eval_affOfVar]
        omega

/-- Witness for the amended C3 on the counterexample fixtures. -/
theorem c3_witness :
    c3Impl.space.params = c3Dom.space.params
    ∧ c3Impl.space.setDims
        = c3Dom.space.setDims.filter (fun n => decide (n ∉ (["j"] : List String)))
          ++ moved_inames_of c3Dom ["j"]
    ∧ c3Impl.constraints
        = [⟨iname_rel_aff (promote_usable_inames c3Dom ["j"]).space "i" .ge (constAff 0)⟩,
           ⟨iname_rel_aff (promote_usable_inames c3Dom ["j"]).space "i" .le (constAff 0)⟩]
    ∧ (∀ rho, c3Impl.satisfies rho
        ↔ ((constAff 0).eval rho ≤ rho "i" ∧ rho "i" ≤ (constAff 0).eval rho)) :=
  @c3_impl_slab_bounds_and_space witAlg c3Dom "i" ["j"] cmZero (constAff 0) (constAff 0)
    c3Impl (fun n hn => by simp [c3Dom, BasicSet.univ] at hn) rfl

/-- C6: for one slab of sequential lowering, if upper minus lower is plainly zero the emitted
block is the degenerate single binding followed by the recursed body with no loop construct
(loop.py lines 334-341); otherwise it is the counted loop from lower to upper inclusive with
step plus one around the recursed body (lines 343-349). -/
theorem c6_sequential_slab_dichotomy {isl : SetAlgebra} {bln : BuildLoopNest} {kernel : Kernel}
    {sched_index : Nat} {loop_iname : String} {usable : List String} {nslabs : Nat}
    {st : CodegenState} {domain : BasicSet} {name : String} {slab : BasicSet}
    {lb ub : Aff} {impl : BasicSet}
    (hfb : find_bounds_and_impl_slab isl ((align_spaces domain slab).inter slab) loop_iname
        usable kernel.cache_manager = .ok (lb, ub, impl)) :
    ((ub.sub lb).plain_is_zero = true →
      generate_sequential_slab_code isl bln kernel sched_index loop_iname usable nslabs st
          domain (name, slab)
        = .ok (align_spaces domain slab,
            (if nslabs == 1 then ([] : List CodeBlock)
             else [CodeBlock.comment (name ++ " slab for " ++ loop_iname)])
            ++ [gen_code_block [CodeBlock.initializer kernel.index_dtype loop_iname lb,
                  CodeBlock.line, bln kernel (sched_index + 1) (st.intersect impl)]]))
    ∧ ((ub.sub lb).plain_is_zero = false →
      generate_sequential_slab_code isl bln kernel sched_index loop_iname usable nslabs st
          domain (name, slab)
        = .ok (align_spaces domain slab,
            (if nslabs == 1 then ([] : List CodeBlock)
             else [CodeBlock.comment (name ++ " slab for " ++ loop_iname)])
            ++ [CodeBlock.forLoop loop_iname lb ub
                  (bln kernel (sched_index + 1) (st.intersect impl))])) := by
  constructor
  · intro hz
    simp only [generate_sequential_slab_code, hfb, hz]
    cases hn : nslabs == 1 <;> simp [hn]
  · intro hz
    simp only [generate_sequential_slab_code, hfb, hz]
    cases hn : nslabs == 1 <;> simp [hn]

/-- Witness for C6: the single-trip fixture (bounds 0 ≤ i ≤ 0) emits the binding block, the
four-trip fixture (bounds 0 ≤ i ≤ 3) emits the counted loop. -/
theorem c6_witness :
    (generate_sequential_slab_code witAlg trivBln c6zKernel 0 "i" [] 1 st0 domI
        ("bulk", BasicSet.univ spI)
      = .ok (align_spaces domI (BasicSet.univ spI),
          (if (1 : Nat) == 1 then ([] : List CodeBlock)
           else [CodeBlock.comment ("bulk" ++ " slab for " ++ "i")])
          ++ [gen_code_block [CodeBlock.initializer c6zKernel.index_dtype "i" (constAff 0),
                CodeBlock.line, trivBln c6zKernel (0 + 1) (st0.intersect c6zImpl)]]))
    ∧ (generate_sequential_slab_code witAlg trivBln c6rKernel 0 "i" [] 1 st0 domI
        ("bulk", BasicSet.univ spI)
      = .ok (align_spaces domI (BasicSet.univ spI),
          (if (1 : Nat) == 1 then ([] : List CodeBlock)
           else [CodeBlock.comment ("bulk" ++ " slab for " ++ "i")])
          ++ [CodeBlock.forLoop "i" (constAff 0) (constAff 3)
                (trivBln c6rKernel (0 + 1) (st0.intersect c6rImpl))])) :=
  ⟨(@c6_sequential_slab_dichotomy witAlg trivBln c6zKernel 0 "i" [] 1 st0 domI "bulk"
      (BasicSet.univ spI) (constAff 0) (constAff 0) c6zImpl rfl).1 rfl,
   (@c6_sequential_slab_dichotomy witAlg trivBln c6rKernel 0 "i" [] 1 st0 domI "bulk"
      (BasicSet.univ spI) (constAff 0) (constAff 3) c6rImpl rfl).2 rfl⟩

/-- C7: the hardware-parallel lowering builds the implemented slab exactly
lower_bound ≤ dimension < lower_bound + axis_size (loop.py lines 246-254) and hands the slab
decomposition and the per-slab stage the codegen state with that slab intersected in
(lines 255-260). -/
theorem c7_hw_slab_exact_and_threaded {isl : SetAlgebra} {bln : BuildLoopNest} {kernel : Kernel}
    {sched_index : Nat} {st : CodegenState} {iname : String} {tag : InameTag} {S L : Aff}
    (hsched : kernel.schedule.get? sched_index = some iname)
    (htag : kernel.iname_to_tag iname = some tag)
    (huniq : tag.isUnique = true)
    (hsize : hw_axis_size_of kernel tag = .ok S)
    (hlb : isl.static_value_of_pw_aff (kernel.get_iname_bounds iname).lower_bound_pw_aff false
      = .ok L) :
    set_up_hw_parallel_loop isl bln kernel sched_index st
      = hw_loop_over_slabs isl bln kernel sched_index iname
          (other_inames_with_same_tag kernel iname tag)
          (st.intersect
            (make_slab (kernel.get_inames_domain iname).space iname L (L.add S)))
    ∧ (∀ rho,
        (make_slab (kernel.get_inames_domain iname).space iname L (L.add S)).satisfies rho
          ↔ (L.eval rho ≤ rho iname ∧ rho iname < L.eval rho + S.eval rho)) := by
  constructor
  · simp only [set_up_hw_parallel_loop, hsched, htag, huniq, if_true, hsize, hlb]
  · intro rho
    rw [make_slab_satisfies, Aff.eval_add]

/-- Witness for C7 on the single hardware-dimension fixture with axis size 8 and lower
bound 0. -/
theorem c7_witness :
    set_up_hw_parallel_loop witAlg trivBln c2Kernel 0 st0
      = hw_loop_over_slabs witAlg trivBln c2Kernel 0 "i"
          (other_inames_with_same_tag c2Kernel "i" (.localIdx 0))
          (st0.intersect (make_slab (c2Kernel.get_inames_domain "i").space "i" (constAff 0)
            ((constAff 0).add (constAff 8))))
    ∧ (∀ rho,
        (make_slab (c2Kernel.get_inames_domain "i").space "i" (constAff 0)
            ((constAff 0).add (constAff 8))).satisfies rho
          ↔ ((constAff 0).eval rho ≤ rho "i"
              ∧ rho "i" < (constAff 0).eval rho + (constAff 8).eval rho)) :=
  c7_hw_slab_exact_and_threaded rfl rfl rfl rfl rfl

/-- C8: with a constant trip count, the unroller performs exactly that many recursive
invocations, the i-th on a fresh state binding the dimension to lower_bound + i, concatenated
in ascending order (loop.py lines 193-199); it introduces no loop construct and never consults
the slab decomposition. -/
theorem c8_unroll_exact {isl : SetAlgebra} {bln : BuildLoopNest} {kernel : Kernel}
    {sched_index : Nat} {st : CodegenState} {iname : String} {size_aff : Aff} {len : Int}
    {lbAff : Aff}
    (hsched : kernel.schedule.get? sched_index = some iname)
    (hmax : isl.static_max_of_pw_aff (kernel.get_iname_bounds iname).size true = .ok size_aff)
    (hconst : size_aff.constValue? = some len)
    (hlb : isl.static_value_of_pw_aff
        (isl.coalesce (kernel.get_iname_bounds iname).lower_bound_pw_aff) false = .ok lbAff) :
    generate_unroll_loop isl bln kernel sched_index st
      = .ok (gen_code_block ((List.range len.toNat).map (fun i =>
          bln kernel (sched_index + 1) (st.fix iname (lbAff.addConst (Int.ofNat i))))))
    ∧ ((∀ i ∈ List.range len.toNat,
          (bln kernel (sched_index + 1)
            (st.fix iname (lbAff.addConst (Int.ofNat i)))).containsFor = false) →
        (gen_code_block ((List.range len.toNat).map (fun i =>
          bln kernel (sched_index + 1)
            (st.fix iname (lbAff.addConst (Int.ofNat i)))))).containsFor = false) := by
  constructor
  · simp only [generate_unroll_loop, hsched, hmax, hconst, hlb]
  · intro h
    simp only [gen_code_block, CodeBlock.containsFor]
    apply containsForList_eq_false
    intro b hb
    obtain ⟨i, hi, rfl⟩ := List.mem_map.mp hb
    exact h i hi

/-- Witness for C8 on the fixture with trip count 4 and lower bound 0: the recursed blocks of
the trivial continuation are loop-free, so the whole unrolled block is. -/
theorem c8_witness :
    generate_unroll_loop witAlg trivBln c8Kernel 0 st0
      = .ok (gen_code_block ((List.range (4 : Int).toNat).map (fun i =>
          trivBln c8Kernel (0 + 1) (st0.fix "i" ((constAff 0).addConst (Int.ofNat i))))))
    ∧ ((∀ i ∈ List.range (4 : Int).toNat,
          (trivBln c8Kernel (0 + 1)
            (st0.fix "i" ((constAff 0).addConst (Int.ofNat i)))).containsFor = false) →
        (gen_code_block ((List.range (4 : Int).toNat).map (fun i =>
          trivBln c8Kernel (0 + 1)
            (st0.fix "i" ((constAff 0).addConst (Int.ofNat i)))))).containsFor = false) :=
  c8_unroll_exact rfl rfl rfl rfl

/-- C10: intersect_kernel_with_slab replaces exactly the home domain of the dimension by its
intersection with the space-aligned slab and leaves every other entry of the domain list and
every other kernel field, the grid-size derivation included, unchanged (loop.py lines
204-211); the embedding is a pure structure update, so the input kernel is untouched. -/
theorem c10_home_domain_replaced {kernel : Kernel} {slab : BasicSet} {iname : String}
    {nk : Kernel} {home : BasicSet}
    (hdom : kernel.domains.get? (kernel.get_home_domain_index iname) = some home)
    (hres : intersect_kernel_with_slab kernel slab iname = .ok nk) :
    nk.domains = kernel.domains.set (kernel.get_home_domain_index iname)
        (home.inter (align_spaces slab home))
    ∧ nk.domains.get? (kernel.get_home_domain_index iname)
        = some (home.inter (align_spaces slab home))
    ∧ (∀ j, j ≠ kernel.get_home_domain_index iname →
        nk.domains.get? j = kernel.domains.get? j)
    ∧ (nk.schedule, nk.iname_to_tag, nk.all_inames, nk.get_grid_sizes, nk.index_dtype,
       nk.iname_slab_increments, nk.get_iname_bounds, nk.get_home_domain_index,
       nk.cache_manager, nk.usable_inames_for_conditional)
      = (kernel.schedule, kernel.iname_to_tag, kernel.all_inames, kernel.get_grid_sizes,
         kernel.index_dtype, kernel.iname_slab_increments, kernel.get_iname_bounds,
         kernel.get_home_domain_index, kernel.cache_manager,
         kernel.usable_inames_for_conditional) := by
  simp only [intersect_kernel_with_slab, hdom] at hres
  simp only [Except.ok.injEq] at hres
  subst hres
  obtain ⟨hlt, _⟩ := List.get?_eq_some.mp hdom
  refine ⟨rfl, ?_, ?_, rfl⟩
  · exact list_get?_set_self _ _ _ hlt
  · intro j hj
    exact list_get?_set_ne _ _ _ _ (fun e => hj e.symm)

/-- The slab used by the C10 witness: i ≥ 0 over the one-dimensional space. -/
def c10Slab : BasicSet := ⟨spI, [⟨⟨[("i", 1)], 0⟩⟩]⟩

/-- The kernel the C10 witness expects back: only the home domain entry changed. -/
def c10NewKernel : Kernel :=
  { c1Kernel with
      domains := c1Kernel.domains.set (c1Kernel.get_home_domain_index "i")
        (domI.inter (align_spaces c10Slab domI)) }

/-- Witness for C10 on the one-domain fixture kernel. -/
theorem c10_witness :
    c10NewKernel.domains = c1Kernel.domains.set (c1Kernel.get_home_domain_index "i")
        (domI.inter (align_spaces c10Slab domI))
    ∧ c10NewKernel.domains.get? (c1Kernel.get_home_domain_index "i")
        = some (domI.inter (align_spaces c10Slab domI))
    ∧ (∀ j, j ≠ c1Kernel.get_home_domain_index "i" →
        c10NewKernel.domains.get? j = c1Kernel.domains.get? j)
    ∧ (c10NewKernel.schedule, c10NewKernel.iname_to_tag, c10NewKernel.all_inames,
       c10NewKernel.get_grid_sizes, c10NewKernel.index_dtype,
       c10NewKernel.iname_slab_increments, c10NewKernel.get_iname_bounds,
       c10NewKernel.get_home_domain_index, c10NewKernel.cache_manager,
       c10NewKernel.usable_inames_for_conditional)
      = (c1Kernel.schedule, c1Kernel.iname_to_tag, c1Kernel.all_inames,
         c1Kernel.get_grid_sizes, c1Kernel.index_dtype, c1Kernel.iname_slab_increments,
         c1Kernel.get_iname_bounds, c1Kernel.get_home_domain_index, c1Kernel.cache_manager,
         c1Kernel.usable_inames_for_conditional) :=
  c10_home_domain_replaced rfl rfl

end Loopy
